import Mathlib

/-!
Verification of `UA_MFA_bypass.py`, a single-file script that performs one
Azure AD ROPC token request with a spoofed User-Agent, prints the outcome,
and on HTTP 200 saves the parsed token response to `token_scope.json`.

The script is embedded shallowly:
* the token response is the flat string-keyed mapping described by the
  repository's data model (string or integer values; Python `json` features
  not exercised by the script on such data - floats, booleans, null, nesting,
  `\uXXXX` escapes of non-ASCII text - are outside the model);
* `json.dumps(obj, indent=n)` and `json.loads` are modelled character by
  character for such flat objects (`dumps`, `jsonParse`);
* the whole module-level control flow of the script is the function `run`,
  mapping the two prompted credentials and the HTTP response to the trace of
  observable effects (requests issued, strings printed, files written, and
  whether an uncaught exception escaped).
-/

/-- A JSON value as it appears in the flat token response: a string or an
integer. -/
inductive JVal where
  | str (s : String)
  | num (n : Int)
deriving DecidableEq

/-- The flat key-value structure returned by the token endpoint, in response
order (Python dicts preserve insertion order). -/
abbrev Flat := List (String × JVal)

/-! ## Characters -/

/-- Decimal digit characters. -/
def isDigitChar (c : Char) : Bool :=
  decide (48 ≤ c.toNat) && decide (c.toNat ≤ 57)

/-- JSON whitespace accepted between tokens by `json.loads`. -/
def isWsChar (c : Char) : Bool :=
  (c == ' ') || (c == '\n') || (c == '\t') || (c == '\r')

/-- Characters serialized verbatim by `json.dumps`: printable ASCII other
than the quote and the backslash. -/
def plainChar (c : Char) : Bool :=
  decide (32 ≤ c.toNat) && decide (c.toNat ≤ 126) && !(c == '"') && !(c == '\\')

/-- A string all of whose characters are serialized verbatim. -/
def plainStr (s : String) : Bool := s.data.all plainChar

/-- A value whose serialization involves no escape sequences. -/
def plainVal : JVal → Bool
  | .str s => plainStr s
  | .num _ => true

/-- A flat object whose serialization involves no escape sequences. -/
def plainFlat (l : Flat) : Bool :=
  l.all (fun kv => plainStr kv.1 && plainVal kv.2)

/-! ## Serialization: model of Python `json.dumps(obj, indent=n)` -/

/-- The decimal digit character for `k < 10`. -/
def digitChar (k : Nat) : Char :=
  if k = 0 then '0' else if k = 1 then '1' else if k = 2 then '2'
  else if k = 3 then '3' else if k = 4 then '4' else if k = 5 then '5'
  else if k = 6 then '6' else if k = 7 then '7' else if k = 8 then '8'
  else '9'

/-- Decimal digits of `n`, least significant first; `fuel` bounds the
number of digits (any `fuel > n` suffices). -/
def natRevDigitsFuel : Nat → Nat → List Char
  | 0, _ => []
  | fuel + 1, n =>
    if n < 10 then [digitChar n]
    else digitChar (n % 10) :: natRevDigitsFuel fuel (n / 10)

/-- Decimal digits of `n`, most significant first. -/
def natChars (n : Nat) : List Char := (natRevDigitsFuel (n + 1) n).reverse

/-- Decimal rendering of an integer, as `json.dumps` prints it. -/
def intChars (i : Int) : List Char :=
  if i < 0 then '-' :: natChars i.natAbs else natChars i.toNat

/-- JSON escaping of one character (the named ASCII escapes of Python
`json.dumps`). -/
def escChar (c : Char) : List Char :=
  if c == '"' then ['\\', '"']
  else if c == '\\' then ['\\', '\\']
  else if c == '\n' then ['\\', 'n']
  else if c == '\t' then ['\\', 't']
  else if c == '\r' then ['\\', 'r']
  else if c == Char.ofNat 8 then ['\\', 'b']
  else if c == Char.ofNat 12 then ['\\', 'f']
  else [c]

/-- JSON escaping of a character sequence. -/
def escChars (s : List Char) : List Char :=
  s.foldr (fun c acc => escChar c ++ acc) []

/-- Serialization of one value. -/
def valChars : JVal → List Char
  | .str s => '"' :: (escChars s.data ++ ['"'])
  | .num i => intChars i

/-- The indentation prefix: `ind` spaces. -/
def spacesChars (ind : Nat) : List Char := List.replicate ind ' '

/-- One `"key": value` line of the indented serialization. -/
def entryChars (ind : Nat) (kv : String × JVal) : List Char :=
  spacesChars ind ++ '"' :: (escChars kv.1.data ++ '"' :: ':' :: ' ' :: valChars kv.2)

/-- The lines of the object body, separated by `",\n"` (the item separator
`json.dumps` uses together with `indent`). -/
def bodyChars (ind : Nat) : Flat → List Char
  | [] => []
  | [kv] => entryChars ind kv
  | kv :: kv2 :: rest => entryChars ind kv ++ ',' :: '\n' :: bodyChars ind (kv2 :: rest)

/-- Character stream of `json.dumps(obj, indent=ind)` for a flat object. -/
def dumpsChars (ind : Nat) : Flat → List Char
  | [] => ['{', '}']
  | kv :: rest => '{' :: '\n' :: (bodyChars ind (kv :: rest) ++ '\n' :: '}' :: [])

/-- Model of Python `json.dumps(obj, indent=ind)` on a flat object. -/
def dumps (ind : Nat) (l : Flat) : String := String.mk (dumpsChars ind l)

/-! ## Parsing: model of Python `json.loads` on flat objects -/

/-- Skip JSON whitespace. -/
def skipWs : List Char → List Char
  | [] => []
  | c :: r => if isWsChar c then skipWs r else c :: r

/-- The table of one-character escape sequences and the characters they
denote. -/
def escTable : List (Char × Char) :=
  [('"', '"'), ('\\', '\\'), ('/', '/'), ('n', '\n'), ('t', '\t'),
   ('r', '\r'), ('b', Char.ofNat 8), ('f', Char.ofNat 12)]

/-- The character denoted by a one-character escape sequence, if any. -/
def unescChar (c : Char) : Option Char :=
  (escTable.find? (fun pair => pair.1 == c)).map Prod.snd

/-- Scan a JSON string body after the opening quote; return the unescaped
content and the remainder after the closing quote. -/
def strChars : List Char → Option (List Char × List Char)
  | [] => none
  | c :: r =>
    if c == '"' then some ([], r)
    else if c == '\\' then
      match r with
      | [] => none
      | e :: r2 =>
        match unescChar e with
        | none => none
        | some u => (strChars r2).map (fun p => (u :: p.1, p.2))
    else (strChars r).map (fun p => (c :: p.1, p.2))

/-- Numeric value of a digit character. -/
def digitVal (c : Char) : Nat := c.toNat - 48

/-- The number denoted by a digit sequence, most significant first. -/
def digitsToNat (cs : List Char) : Nat :=
  cs.foldl (fun a c => 10 * a + digitVal c) 0

/-- Parse one JSON value (string or integer), returning it and the
remainder. -/
def parseVal : List Char → Option (JVal × List Char)
  | [] => none
  | c :: r =>
    if c == '"' then
      (strChars r).map (fun p => (JVal.str (String.mk p.1), p.2))
    else if c == '-' then
      let ds := r.takeWhile isDigitChar
      if ds = [] then none
      else some (JVal.num (-(digitsToNat ds : Int)), r.dropWhile isDigitChar)
    else
      let ds := (c :: r).takeWhile isDigitChar
      if ds = [] then none
      else some (JVal.num (digitsToNat ds : Int), (c :: r).dropWhile isDigitChar)

/-- Parse the entries of a nonempty object up to and including the closing
brace; `fuel` bounds the number of entries. -/
def parseEntriesFuel : Nat → List Char → Option (Flat × List Char)
  | 0, _ => none
  | fuel + 1, cs =>
    match skipWs cs with
    | [] => none
    | c :: r =>
      if c == '"' then
        match strChars r with
        | none => none
        | some (k, r1) =>
          match skipWs r1 with
          | [] => none
          | c2 :: r2 =>
            if c2 == ':' then
              match parseVal (skipWs r2) with
              | none => none
              | some (v, r3) =>
                match skipWs r3 with
                | [] => none
                | c3 :: r4 =>
                  if c3 == ',' then
                    match parseEntriesFuel fuel r4 with
                    | none => none
                    | some (rest, r5) => some ((String.mk k, v) :: rest, r5)
                  else if c3 == '}' then some ([(String.mk k, v)], r4)
                  else none
            else none
      else none

/-- Parse a complete flat JSON object, requiring only whitespace after it. -/
def parseTop (cs : List Char) : Option Flat :=
  match skipWs cs with
  | [] => none
  | c :: r =>
    if c == '{' then
      match skipWs r with
      | [] => none
      | c2 :: r2 =>
        if c2 == '}' then
          if skipWs r2 = [] then some [] else none
        else
          match parseEntriesFuel (r.length + 1) r with
          | none => none
          | some (l, rest) => if skipWs rest = [] then some l else none
    else none

/-- Model of Python `json.loads` (as invoked by `response.json()`) on the
flat objects of the data model: `some` is a successful parse, `none` a
`JSONDecodeError`. -/
def jsonParse (s : String) : Option Flat := parseTop s.data

/-! ## The script -/

/-- An HTTP response as the script observes it: `status_code` and body
`text`. -/
structure Response where
  status_code : Nat
  text : String
deriving DecidableEq

/-- An outbound HTTP POST request as assembled by the script. -/
structure Request where
  url : String
  headers : List (String × String)
  body : List (String × String)
deriving DecidableEq

/-- The observable effects of one invocation of the script. -/
structure RunResult where
  /-- The outbound requests issued, in order. -/
  requests : List Request
  /-- The arguments of the `print` calls executed, in order. -/
  stdout : List String
  /-- The files written, as (filename, content), in order. -/
  fileWrites : List (String × String)
  /-- `some e` when an uncaught exception `e` escapes the script. -/
  uncaughtError : Option String
deriving DecidableEq

/-- The hardcoded spoofed User-Agent (line 65 of the script). -/
def userAgent : String :=
  "Mozilla/5.0 (PlayStation 4 3.11) AppleWebKit/537.73 (KHTML, like Gecko)"

/-- The `headers` dict (lines 64-67). -/
def headers : List (String × String) :=
  [("User-Agent", userAgent),
   ("Content-Type", "application/x-www-form-urlencoded")]

/-- The `data` form body (lines 69-77): fixed resource, client id, grant
type and scope around the two prompted credentials. -/
def data (email password : String) : List (String × String) :=
  [("resource", "https://management.azure.com"),
   ("client_id", "1b730954-1685-4b74-9bfd-dac224a7b894"),
   ("grant_type", "password"),
   ("username", email),
   ("password", password),
   ("scope", "openid")]

/-- The fixed token-issuance endpoint (line 80). -/
def tokenURL : String := "https://login.microsoftonline.com/common/oauth2/token"

/-- The fixed output filename (line 94). -/
def outputFile : String := "token_scope.json"

/-- The module-level flow of `UA_MFA_bypass.py` after the two prompts
(lines 64-104), as a function of the prompted credentials and the HTTP
response: assemble the one request, then branch on `status_code == 200`.
On 200, `response.json()` is called before any write; when the body does
not parse, the `JSONDecodeError` escapes (there is no handler on that
path) and nothing is written. Otherwise the parsed data is printed with
`indent=7` and written to `token_scope.json` with `indent=2`. On any other
status the failure line is printed, then the parsed error body with
`indent=2`, or the raw text when parsing fails (`except:` catches the
parse error). -/
def run (email password : String) (response : Response) : RunResult :=
  let req : Request := { url := tokenURL, headers := headers, body := data email password }
  if response.status_code = 200 then
    match jsonParse response.text with
    | some token_data =>
      { requests := [req]
        stdout := ["\n✅ Tokens retrieved successfully.\n",
                   dumps 7 token_data,
                   "\n💾 Tokens saved to token_scope.json"]
        fileWrites := [(outputFile, dumps 2 token_data)]
        uncaughtError := none }
    | none =>
      { requests := [req]
        stdout := ["\n✅ Tokens retrieved successfully.\n"]
        fileWrites := []
        uncaughtError := some "json.decoder.JSONDecodeError" }
  else
    { requests := [req]
      stdout := ["\n❌ Login failed (" ++ toString response.status_code ++ "):\n"] ++
        (match jsonParse response.text with
         | some error_data => [dumps 2 error_data]
         | none => [response.text])
      fileWrites := []
      uncaughtError := none }

/-! ## Basic lemmas about characters and scanning -/

theorem mk_data (s : String) : String.mk s.data = s := rfl

theorem plainChar_spec {c : Char} (h : plainChar c = true) :
    32 ≤ c.toNat ∧ c.toNat ≤ 126 ∧ c ≠ '"' ∧ c ≠ '\\' := by
  simp only [plainChar, Bool.and_eq_true, decide_eq_true_eq, Bool.not_eq_true',
    beq_eq_false_iff_ne, ne_eq] at h
  exact ⟨h.1.1.1, h.1.1.2, h.1.2, h.2⟩

theorem beq_false_of_toNat_lt {c d : Char} (hc : 32 ≤ c.toNat) (hd : d.toNat < 32) :
    (c == d) = false := by
  rw [beq_eq_false_iff_ne]
  intro e
  subst e
  omega

theorem skipWs_cons_ws {c : Char} {r : List Char} (h : isWsChar c = true) :
    skipWs (c :: r) = skipWs r := by
  simp [skipWs, h]

theorem skipWs_cons_not {c : Char} {r : List Char} (h : isWsChar c = false) :
    skipWs (c :: r) = c :: r := by
  simp [skipWs, h]

theorem skipWs_spaces (n : Nat) (r : List Char) :
    skipWs (spacesChars n ++ r) = skipWs r := by
  induction n with
  | zero => simp [spacesChars]
  | succ m ih =>
    simp only [spacesChars, List.replicate_succ, List.cons_append]
    rw [skipWs_cons_ws (by decide)]
    exact ih

theorem isWsChar_eq_false_of_digit {c : Char} (h : isDigitChar c = true) :
    isWsChar c = false := by
  simp only [isDigitChar, Bool.and_eq_true, decide_eq_true_eq] at h
  simp only [isWsChar, Bool.or_eq_false_iff]
  refine ⟨⟨⟨?_, ?_⟩, ?_⟩, ?_⟩ <;>
    · rw [beq_eq_false_iff_ne]
      intro e
      subst e
      revert h
      decide

theorem takeWhile_append_nil {α : Type} {p : α → Bool} :
    ∀ {a r : List α}, (∀ c ∈ a, p c = true) → r.takeWhile p = [] →
      (a ++ r).takeWhile p = a := by
  intro a
  induction a with
  | nil => intro r _ hr; simpa using hr
  | cons c a ih =>
    intro r h hr
    have hc : p c = true := h c (by simp)
    simp only [List.cons_append, List.takeWhile_cons_of_pos hc, List.cons.injEq, true_and]
    exact ih (fun x hx => h x (by simp [hx])) hr

theorem dropWhile_eq_self_of_takeWhile_nil {α : Type} {p : α → Bool} {r : List α}
    (hr : r.takeWhile p = []) : r.dropWhile p = r := by
  cases r with
  | nil => rfl
  | cons c r =>
    have hc : p c = false := by
      by_contra hb
      rw [List.takeWhile_cons_of_pos (by simpa using hb)] at hr
      exact List.cons_ne_nil _ _ hr
    simp [List.dropWhile_cons_of_neg, hc]

theorem dropWhile_append_id {α : Type} {p : α → Bool} :
    ∀ {a r : List α}, (∀ c ∈ a, p c = true) → r.takeWhile p = [] →
      (a ++ r).dropWhile p = r := by
  intro a
  induction a with
  | nil => intro r _ hr; simpa using dropWhile_eq_self_of_takeWhile_nil hr
  | cons c a ih =>
    intro r h hr
    have hc : p c = true := h c (by simp)
    simp only [List.cons_append, List.dropWhile_cons_of_pos hc]
    exact ih (fun x hx => h x (by simp [hx])) hr

/-! ## Lemmas about decimal digits -/

theorem isDigitChar_digitChar {k : Nat} (h : k < 10) :
    isDigitChar (digitChar k) = true := by
  interval_cases k <;> decide

theorem digitVal_digitChar {k : Nat} (h : k < 10) : digitVal (digitChar k) = k := by
  interval_cases k <;> decide

theorem natRevDigitsFuel_digits :
    ∀ fuel n, n < fuel → ∀ c ∈ natRevDigitsFuel fuel n, isDigitChar c = true := by
  intro fuel
  induction fuel with
  | zero => intro n h; omega
  | succ f ih =>
    intro n _ c hc
    by_cases h10 : n < 10
    · simp only [natRevDigitsFuel, if_pos h10, List.mem_singleton] at hc
      subst hc
      exact isDigitChar_digitChar h10
    · simp only [natRevDigitsFuel, if_neg h10, List.mem_cons] at hc
      rcases hc with hc | hc
      · subst hc
        exact isDigitChar_digitChar (Nat.mod_lt _ (by omega))
      · exact ih (n / 10) (by omega) c hc

theorem natRevDigitsFuel_ne_nil (fuel n : Nat) (h : 0 < fuel) :
    natRevDigitsFuel fuel n ≠ [] := by
  cases fuel with
  | zero => omega
  | succ f =>
    simp only [natRevDigitsFuel]
    split <;> simp

theorem digitsToNat_revDigits :
    ∀ fuel n, n < fuel → digitsToNat ((natRevDigitsFuel fuel n).reverse) = n := by
  intro fuel
  induction fuel with
  | zero => intro n h; omega
  | succ f ih =>
    intro n hn
    by_cases h10 : n < 10
    · simp only [natRevDigitsFuel, if_pos h10, List.reverse_singleton, digitsToNat,
        List.foldl_cons, List.foldl_nil, Nat.mul_zero, Nat.zero_add]
      exact digitVal_digitChar h10
    · have hdiv : n / 10 < f := by omega
      simp only [natRevDigitsFuel, if_neg h10, List.reverse_cons, digitsToNat,
        List.foldl_append, List.foldl_cons, List.foldl_nil]
      have := ih (n / 10) hdiv
      simp only [digitsToNat] at this
      rw [this, digitVal_digitChar (Nat.mod_lt _ (by omega))]
      omega

theorem natChars_digits (n : Nat) : ∀ c ∈ natChars n, isDigitChar c = true := by
  intro c hc
  rw [natChars, List.mem_reverse] at hc
  exact natRevDigitsFuel_digits (n + 1) n (Nat.lt_succ_self n) c hc

theorem natChars_ne_nil (n : Nat) : natChars n ≠ [] := by
  rw [natChars, Ne, List.reverse_eq_nil_iff]
  exact natRevDigitsFuel_ne_nil (n + 1) n (Nat.succ_pos n)

theorem digitsToNat_natChars (n : Nat) : digitsToNat (natChars n) = n :=
  digitsToNat_revDigits (n + 1) n (Nat.lt_succ_self n)

/-! ## Round-trip lemmas for strings and values -/

theorem escChar_plain {c : Char} (h : plainChar c = true) : escChar c = [c] := by
  obtain ⟨h32, _, hq, hb⟩ := plainChar_spec h
  have hq2 : (c == '"') = false := by rwa [beq_eq_false_iff_ne]
  have hb2 : (c == '\\') = false := by rwa [beq_eq_false_iff_ne]
  rw [escChar, hq2, if_neg (by simp), hb2, if_neg (by simp)]
  rw [beq_false_of_toNat_lt h32 (by decide), if_neg (by simp)]
  rw [beq_false_of_toNat_lt h32 (by decide), if_neg (by simp)]
  rw [beq_false_of_toNat_lt h32 (by decide), if_neg (by simp)]
  rw [beq_false_of_toNat_lt h32 (by decide), if_neg (by simp)]
  rw [beq_false_of_toNat_lt h32 (by decide), if_neg (by simp)]

theorem escChars_plain {s : List Char} (h : ∀ c ∈ s, plainChar c = true) :
    escChars s = s := by
  induction s with
  | nil => rfl
  | cons c s ih =>
    simp only [escChars, List.foldr_cons] at ih ⊢
    rw [escChar_plain (h c (by simp)), ih (fun x hx => h x (by simp [hx]))]
    rfl

theorem strChars_append_plain {s r : List Char} (h : ∀ c ∈ s, plainChar c = true) :
    strChars (s ++ '"' :: r) = some (s, r) := by
  induction s with
  | nil =>
    rw [List.nil_append, strChars.eq_def]
    simp
  | cons c s ih =>
    obtain ⟨_, _, hq, hb⟩ := plainChar_spec (h c (by simp))
    have hq2 : (c == '"') = false := by rwa [beq_eq_false_iff_ne]
    have hb2 : (c == '\\') = false := by rwa [beq_eq_false_iff_ne]
    rw [List.cons_append, strChars.eq_def]
    simp only [hq2, hb2, Bool.false_eq_true, if_false,
      ih (fun x hx => h x (by simp [hx])), Option.map_some]
    rfl

theorem parseVal_natChars (n : Nat) (r : List Char)
    (hr : r.takeWhile isDigitChar = []) :
    parseVal (natChars n ++ r) = some (JVal.num (n : Int), r) := by
  obtain ⟨c, cs, hc⟩ := List.exists_cons_of_ne_nil (natChars_ne_nil n)
  have hdig : isDigitChar c = true := natChars_digits n c (by rw [hc]; simp)
  have h48 : 48 ≤ c.toNat ∧ c.toNat ≤ 57 := by
    simpa only [isDigitChar, Bool.and_eq_true, decide_eq_true_eq] using hdig
  have hq : (c == '"') = false := by
    rw [beq_eq_false_iff_ne]
    intro e
    subst e
    revert h48
    decide
  have hm : (c == '-') = false := by
    rw [beq_eq_false_iff_ne]
    intro e
    subst e
    revert h48
    decide
  have htake : (natChars n ++ r).takeWhile isDigitChar = natChars n :=
    takeWhile_append_nil (natChars_digits n) hr
  have hdrop : (natChars n ++ r).dropWhile isDigitChar = r :=
    dropWhile_append_id (natChars_digits n) hr
  rw [hc] at htake hdrop ⊢
  simp only [List.cons_append] at htake hdrop ⊢
  rw [parseVal.eq_def]
  simp only [hq, hm, Bool.false_eq_true, if_false]
  simp only [htake, hdrop]
  rw [if_neg (by rw [← hc]; exact natChars_ne_nil n), ← hc, digitsToNat_natChars]

theorem parseVal_intChars (i : Int) (r : List Char)
    (hr : r.takeWhile isDigitChar = []) :
    parseVal (intChars i ++ r) = some (JVal.num i, r) := by
  by_cases hneg : i < 0
  · have habs : ((i.natAbs : Nat) : Int) = -i := by omega
    rw [intChars, if_pos hneg]
    simp only [List.cons_append]
    rw [parseVal.eq_def]
    simp only [show (('-' : Char) == '\"') = false from rfl, Bool.false_eq_true, if_false,
      beq_self_eq_true, if_true]
    have htake : (natChars i.natAbs ++ r).takeWhile isDigitChar = natChars i.natAbs :=
      takeWhile_append_nil (natChars_digits _) hr
    have hdrop : (natChars i.natAbs ++ r).dropWhile isDigitChar = r :=
      dropWhile_append_id (natChars_digits _) hr
    simp only [htake, hdrop]
    rw [if_neg (natChars_ne_nil _), digitsToNat_natChars, habs, neg_neg]
  · have : ((i.toNat : Nat) : Int) = i := by omega
    rw [intChars, if_neg hneg, parseVal_natChars _ _ hr, this]

theorem parseVal_valChars {v : JVal} (r : List Char) (hv : plainVal v = true)
    (hr : r.takeWhile isDigitChar = []) :
    parseVal (valChars v ++ r) = some (v, r) := by
  cases v with
  | str s =>
    have hall : ∀ c ∈ s.data, plainChar c = true := by
      simpa only [plainVal, plainStr, List.all_eq_true] using hv
    rw [valChars]
    simp only [List.cons_append, List.append_assoc, List.nil_append]
    rw [parseVal.eq_def]
    simp only [beq_self_eq_true, if_true, if_pos]
    rw [escChars_plain hall, strChars_append_plain hall]
    simp [mk_data]
  | num i => exact parseVal_intChars i r hr

theorem skipWs_valChars (v : JVal) (r : List Char) :
    skipWs (valChars v ++ r) = valChars v ++ r := by
  cases v with
  | str s =>
    simp only [valChars, List.cons_append]
    exact skipWs_cons_not (by decide)
  | num i =>
    rw [valChars, intChars]
    by_cases hneg : i < 0
    · rw [if_pos hneg]
      simp only [List.cons_append]
      exact skipWs_cons_not (by decide)
    · rw [if_neg hneg]
      obtain ⟨c, cs, hc⟩ := List.exists_cons_of_ne_nil (natChars_ne_nil i.toNat)
      have hdig : isDigitChar c = true := natChars_digits _ c (by rw [hc]; simp)
      rw [hc]
      simp only [List.cons_append]
      exact skipWs_cons_not (isWsChar_eq_false_of_digit hdig)

theorem parseVal_after_colon {v : JVal} (r : List Char) (hv : plainVal v = true)
    (hr : r.takeWhile isDigitChar = []) :
    parseVal (skipWs (' ' :: (valChars v ++ r))) = some (v, r) := by
  rw [skipWs_cons_ws (by decide), skipWs_valChars, parseVal_valChars r hv hr]

theorem bodyChars_single (ind : Nat) (kv : String × JVal) :
    bodyChars ind [kv] = entryChars ind kv := rfl

theorem bodyChars_cons2 (ind : Nat) (kv kv2 : String × JVal) (rest : Flat) :
    bodyChars ind (kv :: kv2 :: rest) =
      entryChars ind kv ++ ',' :: '\n' :: bodyChars ind (kv2 :: rest) := rfl

theorem skipWs_entry (ind : Nat) (k : String) (v : JVal) (rest : List Char) :
    skipWs ('\n' :: (entryChars ind (k, v) ++ rest)) =
      '"' :: (escChars k.data ++ '"' :: ':' :: ' ' :: (valChars v ++ rest)) := by
  rw [skipWs_cons_ws (by decide), entryChars]
  simp only [List.append_assoc, List.cons_append]
  rw [skipWs_spaces, skipWs_cons_not (by decide)]

theorem parseEntries_dumps (ind : Nat) :
    ∀ (l : Flat) (fuel : Nat) (tail : List Char), plainFlat l = true → l ≠ [] →
      l.length ≤ fuel →
      parseEntriesFuel fuel ('\n' :: (bodyChars ind l ++ '\n' :: '}' :: tail)) =
        some (l, tail) := by
  intro l
  induction l with
  | nil => intro fuel tail _ hne _; exact absurd rfl hne
  | cons kv l2 ih =>
    intro fuel tail hp hne hf
    obtain ⟨k, v⟩ := kv
    have hp1 : (plainStr k && plainVal v) = true ∧ plainFlat l2 = true := by
      simpa only [plainFlat, List.all_cons, Bool.and_eq_true] using hp
    have hk : ∀ c ∈ k.data, plainChar c = true := by
      have h1 := (Bool.and_eq_true _ _ |>.mp hp1.1).1
      simpa only [plainStr, List.all_eq_true] using h1
    have hv : plainVal v = true := (Bool.and_eq_true _ _ |>.mp hp1.1).2
    cases fuel with
    | zero => simp at hf
    | succ f =>
      cases l2 with
      | nil =>
        rw [bodyChars_single]
        have hskip := skipWs_entry ind k v ('\n' :: '}' :: tail)
        have hstr : strChars (escChars k.data ++ '"' :: ':' :: ' ' ::
            (valChars v ++ '\n' :: '}' :: tail)) =
            some (k.data, ':' :: ' ' :: (valChars v ++ '\n' :: '}' :: tail)) := by
          rw [escChars_plain hk, strChars_append_plain hk]
        have hdg : ('\n' :: '}' :: tail).takeWhile isDigitChar = [] :=
          List.takeWhile_cons_of_neg (by decide)
        have hval := parseVal_after_colon (v := v) ('\n' :: '}' :: tail) hv hdg
        rw [parseEntriesFuel.eq_def]
        simp only [hskip, hstr, skipWs_cons_not (show isWsChar ':' = false from rfl),
          beq_self_eq_true, if_true, hval,
          skipWs_cons_ws (show isWsChar '\n' = true from rfl),
          skipWs_cons_not (show isWsChar '}' = false from rfl)]
        simp [mk_data]
      | cons kv2 l3 =>
        rw [bodyChars_cons2]
        simp only [List.append_assoc, List.cons_append]
        have hskip := skipWs_entry ind k v
          (',' :: '\n' :: (bodyChars ind (kv2 :: l3) ++ '\n' :: '}' :: tail))
        have hstr : strChars (escChars k.data ++ '"' :: ':' :: ' ' :: (valChars v ++
            ',' :: '\n' :: (bodyChars ind (kv2 :: l3) ++ '\n' :: '}' :: tail))) =
            some (k.data, ':' :: ' ' :: (valChars v ++
              ',' :: '\n' :: (bodyChars ind (kv2 :: l3) ++ '\n' :: '}' :: tail))) := by
          rw [escChars_plain hk, strChars_append_plain hk]
        have hdg : (',' :: '\n' :: (bodyChars ind (kv2 :: l3) ++
            '\n' :: '}' :: tail)).takeWhile isDigitChar = [] :=
          List.takeWhile_cons_of_neg (by decide)
        have hval := parseVal_after_colon (v := v)
          (',' :: '\n' :: (bodyChars ind (kv2 :: l3) ++ '\n' :: '}' :: tail)) hv hdg
        have hlen : (kv2 :: l3).length ≤ f := by
          simp only [List.length_cons] at hf ⊢
          omega
        have hrec := ih f tail hp1.2 (List.cons_ne_nil _ _) hlen
        rw [parseEntriesFuel.eq_def]
        simp only [hskip, hstr, skipWs_cons_not (show isWsChar ':' = false from rfl),
          beq_self_eq_true, if_true, hval,
          skipWs_cons_not (show isWsChar ',' = false from rfl), hrec]

theorem length_le_bodyChars (ind : Nat) : ∀ l : Flat, l.length ≤ (bodyChars ind l).length := by
  intro l
  induction l with
  | nil => simp [bodyChars]
  | cons kv l2 ih =>
    cases l2 with
    | nil =>
      rw [bodyChars_single, entryChars]
      simp only [List.length_cons, List.length_append, List.length_nil]
      omega
    | cons kv2 l3 =>
      rw [bodyChars_cons2]
      simp only [List.length_cons, List.length_append] at ih ⊢
      omega

theorem jsonParse_dumps {l : Flat} (ind : Nat) (hp : plainFlat l = true) :
    jsonParse (dumps ind l) = some l := by
  cases l with
  | nil => rfl
  | cons kv l2 =>
    have hhead : ∃ Y, skipWs ('\n' :: (bodyChars ind (kv :: l2) ++ '\n' :: '}' :: [])) =
        '"' :: Y := by
      obtain ⟨k, v⟩ := kv
      cases l2 with
      | nil =>
        refine ⟨escChars k.data ++ '"' :: ':' :: ' ' ::
          (valChars v ++ '\n' :: '}' :: []), ?_⟩
        rw [bodyChars_single]
        exact skipWs_entry ind k v _
      | cons kv2 l3 =>
        refine ⟨escChars k.data ++ '"' :: ':' :: ' ' :: (valChars v ++
          ',' :: '\n' :: (bodyChars ind (kv2 :: l3) ++ '\n' :: '}' :: [])), ?_⟩
        rw [bodyChars_cons2]
        simp only [List.append_assoc, List.cons_append]
        exact skipWs_entry ind k v _
    obtain ⟨Y, hY⟩ := hhead
    have hfuel : (kv :: l2).length ≤
        ('\n' :: (bodyChars ind (kv :: l2) ++ '\n' :: '}' :: [])).length + 1 := by
      have := length_le_bodyChars ind (kv :: l2)
      simp only [List.length_cons, List.length_append] at this ⊢
      omega
    have hparse := parseEntries_dumps ind (kv :: l2) _ [] hp (List.cons_ne_nil _ _) hfuel
    rw [jsonParse]
    have hdata : (dumps ind (kv :: l2)).data =
        '{' :: '\n' :: (bodyChars ind (kv :: l2) ++ '\n' :: '}' :: []) := rfl
    rw [hdata, parseTop.eq_def]
    rw [skipWs_cons_not (show isWsChar '{' = false from rfl)]
    simp only [beq_self_eq_true, if_true, hY,
      show (('"' : Char) == '}') = false from rfl, Bool.false_eq_true, if_false, hparse]
    simp [skipWs]

theorem run_requests (email password : String) (response : Response) :
    (run email password response).requests =
      [{ url := tokenURL, headers := headers, body := data email password }] := by
  unfold run
  dsimp only
  by_cases h : response.status_code = 200
  · rw [if_pos h]
    cases jsonParse response.text <;> rfl
  · rw [if_neg h]

theorem run_stdout_resp_only (email1 password1 email2 password2 : String)
    (response : Response) :
    (run email1 password1 response).stdout = (run email2 password2 response).stdout := by
  unfold run
  dsimp only
  by_cases h : response.status_code = 200
  · rw [if_pos h, if_pos h]
    cases jsonParse response.text <;> rfl
  · rw [if_neg h, if_neg h]

/-- C1 (counterexample): a 200 response whose body is not valid JSON refutes
the claim that the file is written on every 200 response: `response.json()`
raises first and `token_scope.json` is not written. -/
theorem c1_counterexample :
    (Response.mk 200 "oops").status_code = 200 ∧
      (run "alice@contoso.com" "hunter2" (Response.mk 200 "oops")).fileWrites = [] := by
  exact ⟨rfl, rfl⟩

/-- C1 (amended): `token_scope.json` is written if and only if the HTTP
status is exactly 200 and the response body parses as JSON; on every non-200
status, and on a 200 status with an unparseable body, no file is written. -/
theorem c1_write_iff (email password : String) (response : Response) :
    (run email password response).fileWrites ≠ [] ↔
      (response.status_code = 200 ∧ jsonParse response.text ≠ none) := by
  unfold run
  dsimp only
  by_cases h : response.status_code = 200
  · rw [if_pos h]
    cases hj : jsonParse response.text <;> simp [h, hj]
  · rw [if_neg h]
    simp [h]

/-- C2 (confirmed): for every operator-supplied username and password, the
one request's form body consists of exactly the six fields, with the fixed
resource, the fixed Azure PowerShell client id, grant type "password" and
scope "openid" regardless of input, and the two credentials in the
username/password fields. -/
theorem c2_request_body (email password : String) (response : Response) :
    (run email password response).requests.map Request.body =
      [[("resource", "https://management.azure.com"),
        ("client_id", "1b730954-1685-4b74-9bfd-dac224a7b894"),
        ("grant_type", "password"),
        ("username", email),
        ("password", password),
        ("scope", "openid")]] := by
  rw [run_requests]
  rfl

/-- C3 (counterexample): for the 200 response with compact body
`{"a":"b"}` the program writes the `indent=2` re-serialization, which is not
byte-identical to the raw response body. -/
theorem c3_counterexample :
    (run "alice@contoso.com" "hunter2"
        (Response.mk 200 "\x7b\"a\":\"b\"\x7d")).fileWrites =
      [("token_scope.json", "\x7b\n  \"a\": \"b\"\n\x7d")] ∧
    "\x7b\n  \"a\": \"b\"\n\x7d" ≠ "\x7b\"a\":\"b\"\x7d" := by
  exact ⟨rfl, by decide⟩

/-- C3 (amended): on a 200 response whose body parses as JSON, the content
written to `token_scope.json` is the `indent=2` re-serialization of the
parsed body, so it is byte-identical to the raw body only when the raw body
already has exactly that form. -/
theorem c3_file_content (email password : String) (response : Response) (l : Flat)
    (h200 : response.status_code = 200) (hj : jsonParse response.text = some l) :
    (run email password response).fileWrites = [("token_scope.json", dumps 2 l)] := by
  unfold run
  dsimp only
  rw [if_pos h200, hj]
  rfl

/-- C3 (witness): the amended statement at the concrete compact body. -/
theorem c3_witness :
    (run "alice@contoso.com" "hunter2" (Response.mk 200 "\x7b\"a\":\"b\"\x7d")).fileWrites =
      [("token_scope.json", dumps 2 [("a", JVal.str "b")])] :=
  c3_file_content "alice@contoso.com" "hunter2" (Response.mk 200 "\x7b\"a\":\"b\"\x7d")
    [("a", JVal.str "b")] rfl (by decide)

/-- C4 (confirmed): every non-200 response is handled by one uniform
function of the response, with no per-status branching: the failure line
(containing the status code), then the `indent=2` rendering of the parsed
error body, or the raw text when the body does not parse; no file is
written and no exception escapes. -/
theorem c4_failure_uniform (email password : String) (response : Response)
    (h : response.status_code ≠ 200) :
    (run email password response).stdout =
        ("\n❌ Login failed (" ++ toString response.status_code ++ "):\n") ::
          (match jsonParse response.text with
           | some error_data => [dumps 2 error_data]
           | none => [response.text]) ∧
      (run email password response).uncaughtError = none ∧
      (run email password response).fileWrites = [] := by
  unfold run
  dsimp only
  rw [if_neg h]
  exact ⟨rfl, rfl, rfl⟩

/-- C4 (witness): the statement at a concrete 403 response with a non-JSON
body. -/
theorem c4_witness :
    (Response.mk 403 "Access denied").status_code ≠ 200 ∧
      ((run "alice@contoso.com" "hunter2" (Response.mk 403 "Access denied")).stdout =
          ("\n❌ Login failed (" ++ toString (Response.mk 403 "Access denied").status_code
              ++ "):\n") ::
            (match jsonParse (Response.mk 403 "Access denied").text with
             | some error_data => [dumps 2 error_data]
             | none => [(Response.mk 403 "Access denied").text]) ∧
        (run "alice@contoso.com" "hunter2"
            (Response.mk 403 "Access denied")).uncaughtError = none ∧
        (run "alice@contoso.com" "hunter2"
            (Response.mk 403 "Access denied")).fileWrites = []) :=
  ⟨by decide,
    c4_failure_uniform "alice@contoso.com" "hunter2" (Response.mk 403 "Access denied")
      (by decide)⟩

/-- C5 (confirmed): what the script prints is a function of the response
alone; in particular two runs that differ only in the operator-supplied
password (or username) but receive the same response print exactly the same
standard output, so the password is never echoed. -/
theorem c5_stdout_credential_independent (email1 password1 email2 password2 : String)
    (response : Response) :
    (run email1 password1 response).stdout = (run email2 password2 response).stdout :=
  run_stdout_resp_only email1 password1 email2 password2 response

/-- C6 (confirmed): for every input the request carries exactly the two
fixed headers: the hardcoded PlayStation 4 User-Agent and the form
Content-Type; they do not depend on any runtime input. -/
theorem c6_request_headers (email password : String) (response : Response) :
    (run email password response).requests.map Request.headers =
      [[("User-Agent",
          "Mozilla/5.0 (PlayStation 4 3.11) AppleWebKit/537.73 (KHTML, like Gecko)"),
        ("Content-Type", "application/x-www-form-urlencoded")]] := by
  rw [run_requests]
  rfl

/-- C7 (confirmed): every invocation issues exactly one outbound POST, to
the fixed token endpoint, whatever the inputs and the response; there is no
retry. -/
theorem c7_single_request (email password : String) (response : Response) :
    (run email password response).requests.length = 1 ∧
      (run email password response).requests.map Request.url =
        ["https://login.microsoftonline.com/common/oauth2/token"] := by
  rw [run_requests]
  exact ⟨rfl, rfl⟩

/-- C8 (confirmed): on a 200 response whose body is not valid JSON, the
`response.json()` call on the success branch raises an exception that
escapes the program (no handler on that path), and no file is written. -/
theorem c8_bad_json_escapes (email password : String) (response : Response)
    (h200 : response.status_code = 200) (hbad : jsonParse response.text = none) :
    (run email password response).uncaughtError ≠ none ∧
      (run email password response).fileWrites = [] := by
  unfold run
  dsimp only
  rw [if_pos h200, hbad]
  exact ⟨by simp, rfl⟩

/-- C8 (witness): the statement at a concrete 200 response with an HTML
body. -/
theorem c8_witness :
    (Response.mk 200 "<html>error</html>").status_code = 200 ∧
      jsonParse (Response.mk 200 "<html>error</html>").text = none ∧
      ((run "alice@contoso.com" "hunter2"
          (Response.mk 200 "<html>error</html>")).uncaughtError ≠ none ∧
        (run "alice@contoso.com" "hunter2"
          (Response.mk 200 "<html>error</html>")).fileWrites = []) :=
  ⟨rfl, by decide,
    c8_bad_json_escapes "alice@contoso.com" "hunter2"
      (Response.mk 200 "<html>error</html>") rfl (by decide)⟩

/-- C9 (confirmed): whenever the file is written, its content is the
`indent=2` JSON re-serialization of the mapping parsed from the response
body, in key order; consequently the file content parses back as JSON (to
that same mapping), whatever the formatting of the raw bytes was. -/
theorem c9_file_reserialization (email password : String) (response : Response)
    (l : Flat) (h200 : response.status_code = 200)
    (hj : jsonParse response.text = some l) (hp : plainFlat l = true) :
    (run email password response).fileWrites = [("token_scope.json", dumps 2 l)] ∧
      jsonParse (dumps 2 l) = some l := by
  constructor
  · unfold run
    dsimp only
    rw [if_pos h200, hj]
    rfl
  · exact jsonParse_dumps 2 hp

/-- C9 (witness): the statement at a concrete 200 response whose compact
body re-serializes with 2-space indentation. -/
theorem c9_witness :
    (Response.mk 200 "\x7b\"token_type\":\"Bearer\",\"expires_in\":3599\x7d").status_code
        = 200 ∧
      plainFlat [("token_type", JVal.str "Bearer"), ("expires_in", JVal.num 3599)] = true ∧
      ((run "bob@contoso.com" "hunter2"
          (Response.mk 200 "\x7b\"token_type\":\"Bearer\",\"expires_in\":3599\x7d")).fileWrites =
        [("token_scope.json",
          dumps 2 [("token_type", JVal.str "Bearer"), ("expires_in", JVal.num 3599)])] ∧
        jsonParse (dumps 2 [("token_type", JVal.str "Bearer"), ("expires_in", JVal.num 3599)]) =
          some [("token_type", JVal.str "Bearer"), ("expires_in", JVal.num 3599)]) :=
  ⟨rfl, by decide,
    c9_file_reserialization "bob@contoso.com" "hunter2"
      (Response.mk 200 "\x7b\"token_type\":\"Bearer\",\"expires_in\":3599\x7d")
      [("token_type", JVal.str "Bearer"), ("expires_in", JVal.num 3599)]
      rfl (by decide) (by decide)⟩

/-- C10 (confirmed): on the success path the structure printed to standard
output is the `indent=7` serialization and the file content is the
`indent=2` serialization of the same parsed mapping, and both serializations
parse back to that identical mapping. -/
theorem c10_print_save_roundtrip (email password : String) (response : Response)
    (l : Flat) (h200 : response.status_code = 200)
    (hj : jsonParse response.text = some l) (hp : plainFlat l = true) :
    (run email password response).stdout =
        ["\n✅ Tokens retrieved successfully.\n", dumps 7 l,
         "\n💾 Tokens saved to token_scope.json"] ∧
      (run email password response).fileWrites = [("token_scope.json", dumps 2 l)] ∧
      jsonParse (dumps 7 l) = some l ∧ jsonParse (dumps 2 l) = some l := by
  refine ⟨?_, ?_, jsonParse_dumps 7 hp, jsonParse_dumps 2 hp⟩ <;>
    · unfold run
      dsimp only
      rw [if_pos h200, hj]
      try rfl

/-- C10 (witness): the statement at a concrete 200 response carrying one
access token field. -/
theorem c10_witness :
    (Response.mk 200 "\x7b\"access_token\":\"abc.def\"\x7d").status_code = 200 ∧
      plainFlat [("access_token", JVal.str "abc.def")] = true ∧
      ((run "carol@contoso.com" "hunter2"
          (Response.mk 200 "\x7b\"access_token\":\"abc.def\"\x7d")).stdout =
        ["\n✅ Tokens retrieved successfully.\n",
         dumps 7 [("access_token", JVal.str "abc.def")],
         "\n💾 Tokens saved to token_scope.json"] ∧
        (run "carol@contoso.com" "hunter2"
          (Response.mk 200 "\x7b\"access_token\":\"abc.def\"\x7d")).fileWrites =
          [("token_scope.json", dumps 2 [("access_token", JVal.str "abc.def")])] ∧
        jsonParse (dumps 7 [("access_token", JVal.str "abc.def")]) =
          some [("access_token", JVal.str "abc.def")] ∧
        jsonParse (dumps 2 [("access_token", JVal.str "abc.def")]) =
          some [("access_token", JVal.str "abc.def")]) :=
  ⟨rfl, by decide,
    c10_print_save_roundtrip "carol@contoso.com" "hunter2"
      (Response.mk 200 "\x7b\"access_token\":\"abc.def\"\x7d")
      [("access_token", JVal.str "abc.def")] rfl (by decide) (by decide)⟩
